import Mathlib

/-!
Verification of the JTAG-Agent repository core: the Device Descriptor Index
(`src/hardware_oracle.py`, class `HardwareOracle`) and the Debug Session
Controller (`src/agent_tools.py`, class `GDBInterface`).

The Python source is shallowly embedded: the SVD-derived device hierarchy
becomes immutable Lean structures, the two oracle queries become pure
functions, and the GDB/QEMU session becomes an explicit state record with
subprocess liveness tracked as booleans.  Python exceptions are modelled
with `Except`.  Machine strings are modelled with Lean `String`
(a list of characters); the numeric helpers mirror CPython behaviour on
ASCII input, which is noted at each definition.
-/

set_option maxHeartbeats 1000000

namespace JTAG

/-- Single-quote character as a string, used to reproduce the quoting of the
Python error-message literals without writing a quote character directly. -/
def sq : String := String.singleton (Char.ofNat 39)

/-! ## Device descriptor data model

Mirrors the `cmsis_svd` objects consumed by `HardwareOracle`: a device is a
list of peripherals, each with a base address, description and registers;
each register has an address offset, description and fields.  These objects
are built once at parse time and never mutated (spec section 3). -/

/-- A bit field of a register: exactly the four attributes that
`resolve_address` copies into each field dict
(`name`, `bit_offset`, `bit_width`, `description`). -/
structure Field where
  name : String
  bit_offset : Nat
  bit_width : Nat
  description : String
deriving DecidableEq

/-- A register of a peripheral (`reg.name`, `reg.address_offset`,
`reg.description`, `reg.fields`). -/
structure Register where
  name : String
  address_offset : Nat
  description : String
  fields : List Field
deriving DecidableEq

/-- A peripheral (`periph.name`, `periph.base_address`,
`periph.description`, `periph.registers`). -/
structure Peripheral where
  name : String
  base_address : Nat
  description : String
  registers : List Register
deriving DecidableEq

/-- The `HardwareOracle` after construction: only `self.peripherals`
(document order of the SVD file) is consulted by the two queries. -/
structure HardwareOracle where
  peripherals : List Peripheral
deriving DecidableEq

/-! ## Python string helpers

`int(hex_addr, 16)`, `hex(...)`, `str.upper()` and `str.split('.')`,
modelled for ASCII input (SVD identifiers and addresses are ASCII). -/

/-- Python `str.upper()` on one ASCII character: basic latin lower-case
letters are shifted to upper case, everything else is unchanged. -/
def pyCharUpper (c : Char) : Char :=
  if 97 ≤ c.toNat ∧ c.toNat ≤ 122 then Char.ofNat (c.toNat - 32) else c

/-- Python `str.upper()` (ASCII fragment): character-wise upper-casing. -/
def pyUpperStr (s : String) : String :=
  String.mk (s.data.map pyCharUpper)

/-- Python `str.split('.')`: split on every dot, keeping empty pieces;
`"".split('.') == [""]` and `"a..b".split('.') == ["a","","b"]`. -/
def pySplitDot (s : String) : List String :=
  (s.data.splitOn (Char.ofNat 46)).map String.mk

/-- ASCII whitespace accepted (and stripped) by Python `int()`:
space, tab, newline, carriage return, vertical tab, form feed. -/
def pyIsSpace (c : Char) : Bool :=
  c = Char.ofNat 32 ∨ c = Char.ofNat 9 ∨ c = Char.ofNat 10 ∨
  c = Char.ofNat 13 ∨ c = Char.ofNat 11 ∨ c = Char.ofNat 12

/-- Strip leading and trailing whitespace, as `int()` does before parsing. -/
def pyStrip (l : List Char) : List Char :=
  ((l.dropWhile pyIsSpace).reverse.dropWhile pyIsSpace).reverse

/-- Hexadecimal digit test (`0-9`, `a-f`, `A-F`). -/
def pyIsHexDigit (c : Char) : Bool :=
  (48 ≤ c.toNat ∧ c.toNat ≤ 57) ∨ (97 ≤ c.toNat ∧ c.toNat ≤ 102) ∨
  (65 ≤ c.toNat ∧ c.toNat ≤ 70)

/-- Value of a hexadecimal digit. -/
def hexVal (c : Char) : Nat :=
  if 48 ≤ c.toNat ∧ c.toNat ≤ 57 then c.toNat - 48
  else if 97 ≤ c.toNat ∧ c.toNat ≤ 102 then c.toNat - 87
  else c.toNat - 55

/-- Digits after the first one, per the CPython grammar for `int(s, 16)`:
single underscores are allowed between digits only (no doubled, no
trailing underscore).  `afterU` records that the previous character was
an underscore. -/
def hexDigitsLoop : List Char → Bool → Nat → Option Nat
  | [], afterU, acc => if afterU then none else some acc
  | c :: cs, afterU, acc =>
    if pyIsHexDigit c then hexDigitsLoop cs false (acc * 16 + hexVal c)
    else if c = Char.ofNat 95 ∧ afterU = false then hexDigitsLoop cs true acc
    else none

/-- Digit group of `int(s, 16)`.  When the `0x` prefix was present one
leading underscore is allowed (`int("0x_1f",16)` parses, `int("_1f",16)`
does not); the group must be nonempty. -/
def parseHexDigits (afterPfx : Bool) (l : List Char) : Option Nat :=
  match l with
  | [] => none
  | c :: cs =>
    if pyIsHexDigit c then hexDigitsLoop cs false (hexVal c)
    else if c = Char.ofNat 95 ∧ afterPfx then
      match cs with
      | [] => none
      | c2 :: cs2 =>
        if pyIsHexDigit c2 then hexDigitsLoop cs2 false (hexVal c2) else none
    else none

/-- Optional sign, before the `0x` prefix, as `int()` accepts it. -/
def pySign : List Char → Bool × List Char
  | c :: r =>
    if c = Char.ofNat 43 then (false, r)
    else if c = Char.ofNat 45 then (true, r)
    else (false, c :: r)
  | [] => (false, [])

/-- CPython `int(s, 16)` (ASCII fragment): strip whitespace, optional sign,
optional `0x`/`0X` prefix, then underscore-separated hex digits.
`none` models the `ValueError` that `resolve_address` catches. -/
def pyIntHex (s : String) : Option Int :=
  let l := pyStrip s.data
  let sl := pySign l
  let body :=
    match sl.2 with
    | c0 :: c1 :: r =>
      if c0 = Char.ofNat 48 ∧ (c1 = Char.ofNat 120 ∨ c1 = Char.ofNat 88) then
        parseHexDigits true r
      else parseHexDigits false sl.2
    | _ => parseHexDigits false sl.2
  body.map (fun n => if sl.1 then -(n : Int) else (n : Int))

/-- Python `hex(i)`: `0x` plus lower-case hex digits, `-0x...` for negative
values (`hex(0) == "0x0"`). -/
def pyHex (i : Int) : String :=
  if i < 0 then "-0x" ++ String.mk (Nat.toDigits 16 i.natAbs)
  else "0x" ++ String.mk (Nat.toDigits 16 i.natAbs)

/-! ## `HardwareOracle.resolve_address` -/

/-- The three dict shapes `resolve_address` can return:
`{"error": ...}` for an unparseable address, the match dict
(peripheral name, register name, register description, `hex(addr)`, and
the field list), and `{"status": ...}` when no register matches. -/
inductive ResolveResult where
  | error (msg : String)
  | found (peripheral register description address : String) (fields : List Field)
  | status (msg : String)
deriving DecidableEq

/-- The inner `for reg in periph.registers` loop: first register whose
`address_offset` equals the computed offset. -/
def regLookup (offset : Int) (regs : List Register) : Option Register :=
  regs.find? (fun r => (r.address_offset : Int) == offset)

/-- One iteration of the outer loop of `resolve_address`: skip the
peripheral when `addr < base` (the `continue`), otherwise look for a
register at offset `addr - base`. -/
def pMatch (addr : Int) (p : Peripheral) : Option Register :=
  if addr < (p.base_address : Int) then none
  else regLookup (addr - (p.base_address : Int)) p.registers

/-- The outer `for periph in self.peripherals` loop: return the match dict
for the first peripheral containing a register at the right offset, or
the no-match status dict after the loop.  The field dicts built by the
source carry exactly the four `Field` attributes, so `r.fields` is the
field list verbatim. -/
def resolveLoop (addr : Int) : List Peripheral → ResolveResult
  | [] => ResolveResult.status "No matching register found for this address."
  | p :: ps =>
    match pMatch addr p with
    | some r =>
      ResolveResult.found p.name r.name r.description (pyHex addr) r.fields
    | none => resolveLoop addr ps

/-- `HardwareOracle.resolve_address(hex_addr)`: parse the address
(`int(hex_addr, 16)`, `ValueError` caught and turned into an error dict),
then scan the peripherals. -/
def resolve_address (o : HardwareOracle) (hex_addr : String) : ResolveResult :=
  match pyIntHex hex_addr with
  | none => ResolveResult.error ("Invalid address format: " ++ hex_addr)
  | some addr => resolveLoop addr o.peripherals

/-! ## `HardwareOracle.get_reg_info` -/

/-- The three dict shapes `get_reg_info` can return: an error dict, the
peripheral dict (name, `hex(base)`, description, register-name list), and
the register dict (names, `hex(base)`, `hex(offset)`,
`hex(base + offset)`, description). -/
inductive RegInfoResult where
  | error (msg : String)
  | periphInfo (peripheral base_address description : String)
      (registers : List String)
  | regInfo (peripheral register base_address offset absolute_address
      description : String)
deriving DecidableEq

/-- Whether a `get_reg_info` outcome is the error dict. -/
def RegInfoResult.isErr : RegInfoResult → Bool
  | RegInfoResult.error _ => true
  | _ => false

/-- Body of `get_reg_info` after `name.upper().split('.')` has produced
`parts`: `p_name = parts[0]`, `r_name = parts[1] if len(parts) > 1 else
None`, a linear scan for the peripheral, then `if r_name:` — note the
Python truthiness: an *empty* second component behaves like no second
component — and a linear scan for the register. -/
def get_reg_info_parts (o : HardwareOracle) (p_name : String)
    (r_name : Option String) : RegInfoResult :=
  match o.peripherals.find? (fun p => p.name == p_name) with
  | none =>
    RegInfoResult.error ("Peripheral " ++ sq ++ p_name ++ sq ++ " not found.")
  | some p =>
    let periphCase := RegInfoResult.periphInfo p_name
      (pyHex (p.base_address : Int)) p.description
      (p.registers.map (fun r => r.name))
    match r_name with
    | none => periphCase
    | some rn =>
      if rn = "" then periphCase
      else
        match p.registers.find? (fun r => r.name == rn) with
        | some r =>
          RegInfoResult.regInfo p_name rn (pyHex (p.base_address : Int))
            (pyHex (r.address_offset : Int))
            (pyHex ((p.base_address : Int) + (r.address_offset : Int)))
            r.description
        | none =>
          RegInfoResult.error ("Register " ++ sq ++ rn ++ sq ++
            " not found in " ++ sq ++ p_name ++ sq ++ ".")

/-- `HardwareOracle.get_reg_info(name)`: upper-case the query, split on
dots, and dispatch on the first two components.  `split` never returns an
empty list, so the `[]` branch is unreachable. -/
def get_reg_info (o : HardwareOracle) (name : String) : RegInfoResult :=
  match pySplitDot (pyUpperStr name) with
  | [] => RegInfoResult.error ""
  | p :: rest => get_reg_info_parts o p rest.head?

/-! ## `GDBInterface`: session state and the Command API

`agent_tools.py` owns one optional QEMU subprocess handle and one optional
`GdbController`.  The embedding tracks every subprocess ever spawned in
spawn order together with its liveness, so that "at most one live
instance" is a statement about all spawned processes, not only about the
currently held handles.  A raised Python exception is `Except.error`. -/

/-- The single Python exception kind these methods can raise on a missing
session: `AttributeError` from calling a method on `None`. -/
inductive PyExc where
  | attributeError (msg : String)
deriving DecidableEq

/-- The `pygdbmi.GdbController` held in `self.gdbmi`: which debugger
subprocess it owns (index into the spawn list) and the commands written
to it so far. -/
structure GdbSession where
  proc : Nat
  transcript : List String
deriving DecidableEq

/-- State of a `GDBInterface` object plus the spawned OS processes:
`emus`/`dbgs` record liveness of every QEMU (resp. GDB) subprocess ever
started, in spawn order; `qemu_proc` and `gdbmi` are the object's two
handles (`None` modelled as `none`). -/
structure GDBInterface where
  elf_path : String
  emus : List Bool
  dbgs : List Bool
  qemu_proc : Option Nat
  gdbmi : Option GdbSession
deriving DecidableEq

/-- `GDBInterface.__init__(elf_path)`: both handles start as `None` and no
subprocess has been spawned. -/
def gdbInit (elf_path : String) : GDBInterface :=
  { elf_path := elf_path, emus := [], dbgs := [], qemu_proc := none,
    gdbmi := none }

/-- The `AttributeError` raised by `self.gdbmi.write(...)` when
`self.gdbmi` is `None`. -/
def noSessionError : PyExc :=
  PyExc.attributeError (sq ++ "NoneType" ++ sq ++
    " object has no attribute " ++ sq ++ "write" ++ sq)

/-- `self.gdbmi.write(cmd)`: raises `AttributeError` when no controller is
held, otherwise appends the command to the controller's stream.  The
parsed responses returned by pygdbmi are not modelled; the claims concern
the command stream and the session state. -/
def gdbmiWrite (s : GDBInterface) (cmd : String) :
    Except PyExc GDBInterface :=
  match s.gdbmi with
  | none => Except.error noSessionError
  | some g =>
    Except.ok { s with gdbmi := some { g with transcript := g.transcript ++ [cmd] } }

/-- `step_instruction`: writes `-exec-next-instruction` (the docstring
claims `stepi`). -/
def step_instruction (s : GDBInterface) : Except PyExc GDBInterface :=
  gdbmiWrite s "-exec-next-instruction"

/-- `continue_execution`: writes `-exec-continue`. -/
def continue_execution (s : GDBInterface) : Except PyExc GDBInterface :=
  gdbmiWrite s "-exec-continue"

/-- `get_registers`: writes `-data-list-register-values x`. -/
def get_registers (s : GDBInterface) : Except PyExc GDBInterface :=
  gdbmiWrite s "-data-list-register-values x"

/-- `read_memory(address, length)`: writes
`-data-read-memory-bytes {address} {length}`. -/
def read_memory (s : GDBInterface) (address : String) (length : Int) :
    Except PyExc GDBInterface :=
  gdbmiWrite s ("-data-read-memory-bytes " ++ address ++ " " ++ toString length)

/-- `set_breakpoint(location)`: writes `-break-insert {location}`. -/
def set_breakpoint (s : GDBInterface) (location : String) :
    Except PyExc GDBInterface :=
  gdbmiWrite s ("-break-insert " ++ location)

/-- `backtrace`: writes `-stack-list-frames`. -/
def backtrace (s : GDBInterface) : Except PyExc GDBInterface :=
  gdbmiWrite s "-stack-list-frames"

/-- `evaluate_expression(expression)`: writes
`-data-evaluate-expression "{expression}"`. -/
def evaluate_expression (s : GDBInterface) (expression : String) :
    Except PyExc GDBInterface :=
  gdbmiWrite s ("-data-evaluate-expression \"" ++ expression ++ "\"")

/-- The *effective* `write_register` (the second definition in the class
body, which shadows the first): writes `-gdb-set ${register_id} = {value}`. -/
def write_register (s : GDBInterface) (register_id value : String) :
    Except PyExc GDBInterface :=
  gdbmiWrite s ("-gdb-set $" ++ register_id ++ " = " ++ value)

/-- The C type chosen by the *first* (shadowed) `write_memory` definition:
`type_map = {1: "char", 2: "short", 4: "int", 8: "long long"}` with
`.get(width, "int")`. -/
def write_memory_first_type (width : Nat) : String :=
  match width with
  | 1 => "char"
  | 2 => "short"
  | 4 => "int"
  | 8 => "long long"
  | _ => "int"

/-- Command emitted by the *first* (shadowed) `write_memory(address,
value, width=4)` definition:
`-interpreter-exec console "set *({c_type}*){address} = {value}"`.
This code is dead: Python rebinds the name to the later definition. -/
def write_memory_first_cmd (address value : String) (width : Nat) : String :=
  "-interpreter-exec console \"set *(" ++ write_memory_first_type width ++
    "*)" ++ address ++ " = " ++ value ++ "\""

/-- Command emitted by the *effective* `write_memory(address, value)`
definition (the second one in the class body): it takes no width and
always writes through an `int` cast:
`interpreter-exec console "set {int}{address} = {value}"`. -/
def write_memory_cmd (address value : String) : String :=
  "interpreter-exec console \"set \x7bint\x7d" ++ address ++ " = " ++
    value ++ "\""

/-- The *effective* `write_memory` method bound on the class. -/
def write_memory (s : GDBInterface) (address value : String) :
    Except PyExc GDBInterface :=
  gdbmiWrite s (write_memory_cmd address value)

/-! ## Process lifecycle: `stop_all`, `restart_environment`, `start` -/

/-- First `if` of `stop_all`: `if self.qemu_proc: os.killpg(...)` — the
emulator process group becomes dead — `self.qemu_proc = None`.
`stop_all` is safe to call when nothing is running: both `if`s skip. -/
def stop_qemu (s : GDBInterface) : GDBInterface :=
  match s.qemu_proc with
  | some i => { s with emus := s.emus.set i false, qemu_proc := none }
  | none => s

/-- Second `if` of `stop_all`: `if self.gdbmi: self.gdbmi.exit();
self.gdbmi = None`. -/
def stop_gdb (s : GDBInterface) : GDBInterface :=
  match s.gdbmi with
  | some g => { s with dbgs := s.dbgs.set g.proc false, gdbmi := none }
  | none => s

/-- `stop_all`: both teardown steps in order. -/
def stop_all (s : GDBInterface) : GDBInterface := stop_gdb (stop_qemu s)

/-- `restart_environment`: `stop_all`, then spawn QEMU in its own process
group (`make startqemu` under `setsid`), sleep, spawn a fresh
`GdbController` and write the two bootstrap commands
(`-file-exec-and-symbols {elf}`, `target remote localhost:1234`); returns
the status string. -/
def restart_environment (s : GDBInterface) : String × GDBInterface :=
  let s1 := stop_all s
  let s2 := { s1 with emus := s1.emus ++ [true],
                      qemu_proc := some s1.emus.length }
  let s3 := { s2 with dbgs := s2.dbgs ++ [true],
                      gdbmi := some
                        { proc := s2.dbgs.length,
                          transcript :=
                            ["-file-exec-and-symbols " ++ s.elf_path,
                             "target remote localhost:1234"] } }
  ("Environment restarted. CPU is halted at entry point.", s3)

/-- `start`: `if not self.gdbmi: self.restart_environment()` (a held
`GdbController` object is always truthy). -/
def start (s : GDBInterface) : GDBInterface :=
  match s.gdbmi with
  | none => (restart_environment s).2
  | some _ => s

/-- The lifecycle operations of claim C8. -/
inductive LifecycleOp where
  | startOp
  | restartOp
  | stopOp
deriving DecidableEq

/-- Apply one lifecycle operation. -/
def applyOp (s : GDBInterface) : LifecycleOp → GDBInterface
  | LifecycleOp.startOp => start s
  | LifecycleOp.restartOp => (restart_environment s).2
  | LifecycleOp.stopOp => stop_all s

/-- Run a sequence of lifecycle operations from a given state. -/
def runOps (s : GDBInterface) (ops : List LifecycleOp) : GDBInterface :=
  ops.foldl applyOp s

/-- Number of live emulator subprocesses. -/
def liveEmuCount (s : GDBInterface) : Nat := s.emus.count true

/-- Number of live debugger subprocesses. -/
def liveDbgCount (s : GDBInterface) : Nat := s.dbgs.count true

/-- The QEMU handle tracks exactly the live emulator subprocess: position
`j` is live iff the handle points at `j`. -/
def TracksEmu (s : GDBInterface) : Prop :=
  ∀ j, s.emus.get? j = some true ↔ s.qemu_proc = some j

/-- The controller handle tracks exactly the live debugger subprocess. -/
def TracksDbg (s : GDBInterface) : Prop :=
  ∀ j, s.dbgs.get? j = some true ↔ ∃ g, s.gdbmi = some g ∧ g.proc = j

/-- Session invariant: both handles track their live subprocess. -/
def SessionInv (s : GDBInterface) : Prop := TracksEmu s ∧ TracksDbg s

/-! ## Concrete test data

A small descriptor index used by the witnesses: the spec's own scenario
(`RCC` at `0x40021000` with `CR` at offset 0) plus a `GPIOA` with two
registers, one carrying fields; and a mixed-case index used by the
counterexamples. -/

/-- `RCC.CR` register at offset 0. -/
def crReg : Register :=
  { name := "CR", address_offset := 0, description := "Clock control register",
    fields := [{ name := "HSION", bit_offset := 0, bit_width := 1,
                 description := "Internal oscillator enable" }] }

/-- `RCC` peripheral at base `0x40021000`. -/
def rcc : Peripheral :=
  { name := "RCC", base_address := 0x40021000,
    description := "Reset and clock control", registers := [crReg] }

/-- `GPIOA.MODER` register at offset 0. -/
def moderReg : Register :=
  { name := "MODER", address_offset := 0, description := "Mode register",
    fields := [{ name := "MODE0", bit_offset := 0, bit_width := 2,
                 description := "Pin 0 mode" }] }

/-- `GPIOA.ODR` register at offset `0x14`. -/
def odrReg : Register :=
  { name := "ODR", address_offset := 0x14,
    description := "Output data register", fields := [] }

/-- `GPIOA` peripheral at base `0x48000000`. -/
def gpioa : Peripheral :=
  { name := "GPIOA", base_address := 0x48000000,
    description := "General purpose I O port A",
    registers := [moderReg, odrReg] }

/-- Demo index with two peripherals in document order. -/
def demoOracle : HardwareOracle := { peripherals := [rcc, gpioa] }

/-- A peripheral whose stored name is mixed-case. -/
def gpioAMixed : Peripheral :=
  { name := "GpioA", base_address := 0x48000000,
    description := "General purpose I O port A",
    registers := [{ name := "Moder", address_offset := 0,
                    description := "Mode register", fields := [] }] }

/-- Index holding only the mixed-case peripheral. -/
def mixedOracle : HardwareOracle := { peripherals := [gpioAMixed] }

/-- A live session as produced by a first `restart_environment`. -/
def demoLive : GDBInterface := (restart_environment (gdbInit "firmware/app.elf")).2

/-! ## Helper lemmas for `resolve_address` -/

/-- A peripheral that owns a register at `addr − base` produces a match. -/
theorem pMatch_isSome_of_reg (addr : Int) (P : Peripheral) (R : Register)
    (hR : R ∈ P.registers)
    (haddr : addr = (P.base_address : Int) + (R.address_offset : Int)) :
    (pMatch addr P).isSome := by
  have hge : ¬ addr < (P.base_address : Int) := by omega
  unfold pMatch
  rw [if_neg hge]
  unfold regLookup
  rw [List.find?_isSome]
  refine ⟨R, hR, ?_⟩
  simp only [beq_iff_eq]
  omega

/-- When no peripheral matches, the scan falls through to the status dict. -/
theorem resolveLoop_no_match (addr : Int) :
    ∀ ps : List Peripheral, (∀ Q ∈ ps, pMatch addr Q = none) →
    resolveLoop addr ps =
      ResolveResult.status "No matching register found for this address." := by
  intro ps
  induction ps with
  | nil => intro _; rfl
  | cons p ps ih =>
    intro h
    have hp := h p (List.mem_cons_self p ps)
    simp only [resolveLoop, hp]
    exact ih (fun Q hQ => h Q (List.mem_cons_of_mem p hQ))

/-- The scan returns the match dict of the first matching peripheral in
document order. -/
theorem resolveLoop_first_match (addr : Int) :
    ∀ ps : List Peripheral, (∃ P ∈ ps, (pMatch addr P).isSome) →
    ∃ pre P' R' post, ps = pre ++ P' :: post ∧
      (∀ Q ∈ pre, pMatch addr Q = none) ∧
      pMatch addr P' = some R' ∧
      resolveLoop addr ps =
        ResolveResult.found P'.name R'.name R'.description (pyHex addr)
          R'.fields := by
  intro ps
  induction ps with
  | nil =>
    intro hex
    obtain ⟨P, hP, _⟩ := hex
    cases hP
  | cons p ps ih =>
    intro hex
    cases hpm : pMatch addr p with
    | some r =>
      refine ⟨[], p, r, ps, rfl, by simp, hpm, ?_⟩
      simp [resolveLoop, hpm]
    | none =>
      have hex' : ∃ P ∈ ps, (pMatch addr P).isSome := by
        obtain ⟨P, hP, hs⟩ := hex
        rcases List.mem_cons.mp hP with h | h
        · subst h
          rw [hpm] at hs
          simp at hs
        · exact ⟨P, h, hs⟩
      obtain ⟨pre, P', R', post, hps, hpre, hPm', hres⟩ := ih hex'
      refine ⟨p :: pre, P', R', post, by rw [hps]; rfl, ?_, hPm', ?_⟩
      · intro Q hQ
        rcases List.mem_cons.mp hQ with h | h
        · subst h
          exact hpm
        · exact hpre Q h
      · simp only [resolveLoop, hpm]
        exact hres

/-! ## Claim theorems -/

/-- C1: for every hex address string whose value is `base(P) + offset(R)`
for some peripheral `P` and register `R` of the index, `resolve_address`
returns the peripheral name, register name and full field list of a
matching register, and the peripheral that wins is the first one in
document order that contains a register matching the address. -/
theorem resolve_address_first_document_match
    (o : HardwareOracle) (s : String) (addr : Int) (P : Peripheral)
    (R : Register)
    (hs : pyIntHex s = some addr)
    (hP : P ∈ o.peripherals) (hR : R ∈ P.registers)
    (haddr : addr = (P.base_address : Int) + (R.address_offset : Int)) :
    ∃ pre P' R' post,
      o.peripherals = pre ++ P' :: post ∧
      (∀ Q ∈ pre, pMatch addr Q = none) ∧
      pMatch addr P' = some R' ∧
      resolve_address o s =
        ResolveResult.found P'.name R'.name R'.description (pyHex addr)
          R'.fields := by
  have hex : ∃ P' ∈ o.peripherals, (pMatch addr P').isSome :=
    ⟨P, hP, pMatch_isSome_of_reg addr P R hR haddr⟩
  obtain ⟨pre, P', R', post, h1, h2, h3, h4⟩ :=
    resolveLoop_first_match addr o.peripherals hex
  have hra : resolve_address o s = resolveLoop addr o.peripherals := by
    unfold resolve_address
    rw [hs]
  exact ⟨pre, P', R', post, h1, h2, h3, by rw [hra]; exact h4⟩

/-- Witness for C1 at the spec's own scenario: `RCC` at base `0x40021000`
with `CR` at offset 0, queried at `"0x40021000"`. -/
theorem resolve_address_first_document_match_witness :
    pyIntHex "0x40021000" = some 0x40021000 ∧
    rcc ∈ demoOracle.peripherals ∧ crReg ∈ rcc.registers ∧
    (0x40021000 : Int) = (rcc.base_address : Int) + (crReg.address_offset : Int) ∧
    (∃ pre P' R' post,
      demoOracle.peripherals = pre ++ P' :: post ∧
      (∀ Q ∈ pre, pMatch 0x40021000 Q = none) ∧
      pMatch 0x40021000 P' = some R' ∧
      resolve_address demoOracle "0x40021000" =
        ResolveResult.found P'.name R'.name R'.description (pyHex 0x40021000)
          R'.fields) :=
  ⟨by decide, by decide, by decide, by decide,
   resolve_address_first_document_match demoOracle "0x40021000" 0x40021000
     rcc crReg (by decide) (by decide) (by decide) (by decide)⟩

/-- C2: the claim says `write_memory` writes a scalar of exactly the given
width for width in 1, 2, 4, 8.  The class defines `write_memory` twice;
Python binds the *second* definition, which takes no width argument and
always emits an `int`-typed (4-byte) console write.  The width-aware
command construction lives only in the first, shadowed, dead definition.
This theorem evaluates both at the failing input (width 2): the effective
method cannot even receive the width, and its command casts through
`int`, not `short`. -/
theorem write_memory_width_is_ignored :
    write_memory_cmd "0x20000000" "0x5" =
      "interpreter-exec console \"set \x7bint\x7d0x20000000 = 0x5\"" ∧
    write_memory_first_cmd "0x20000000" "0x5" 2 =
      "-interpreter-exec console \"set *(short*)0x20000000 = 0x5\"" ∧
    write_memory demoLive "0x20000000" "0x5" = Except.ok
      { elf_path := "firmware/app.elf", emus := [true], dbgs := [true],
        qemu_proc := some 0,
        gdbmi := some { proc := 0, transcript :=
          ["-file-exec-and-symbols firmware/app.elf",
           "target remote localhost:1234",
           "interpreter-exec console \"set \x7bint\x7d0x20000000 = 0x5\""] } } :=
  ⟨rfl, rfl, rfl⟩

/-- C4: the claim (and the docstring, which says `stepi`) promises a step
of exactly one machine instruction in every case.  The code issues
`-exec-next-instruction`, GDB's `nexti`, which runs an entire called
function as one step when the program counter is at a call instruction;
the single-machine-instruction command is `-exec-step-instruction`.
This theorem evaluates the code: the command written is
`-exec-next-instruction`, which is not the single-instruction command. -/
theorem step_instruction_issues_next_instruction :
    step_instruction demoLive = Except.ok
      { elf_path := "firmware/app.elf", emus := [true], dbgs := [true],
        qemu_proc := some 0,
        gdbmi := some { proc := 0, transcript :=
          ["-file-exec-and-symbols firmware/app.elf",
           "target remote localhost:1234", "-exec-next-instruction"] } } ∧
    "-exec-next-instruction" ≠ "-exec-step-instruction" :=
  ⟨rfl, by decide⟩

/-- C6: `resolve_address` is total: an input that does not parse as a hex
address yields the structured error dict (the caught `ValueError`), a
parseable address matching no register yields the status dict, and the
two outcomes are distinct constructors.  Totality itself is by
construction: the embedding is a total function with no exception
channel. -/
theorem resolve_address_total_taxonomy (o : HardwareOracle) (s : String) :
    (pyIntHex s = none →
      resolve_address o s =
        ResolveResult.error ("Invalid address format: " ++ s)) ∧
    (∀ addr, pyIntHex s = some addr →
      (∀ Q ∈ o.peripherals, pMatch addr Q = none) →
      resolve_address o s =
        ResolveResult.status "No matching register found for this address.") ∧
    (∀ m m', ResolveResult.status m ≠ ResolveResult.error m') := by
  refine ⟨?_, ?_, ?_⟩
  · intro h
    unfold resolve_address
    rw [h]
  · intro addr h hnone
    have hra : resolve_address o s = resolveLoop addr o.peripherals := by
      unfold resolve_address
      rw [h]
    rw [hra]
    exact resolveLoop_no_match addr o.peripherals hnone
  · intro m m' h
    exact ResolveResult.noConfusion h

/-- Witness for C6: the malformed input `"zz"` and the unmatched address
`"0xFFFFFFFF"` from the spec's own test list. -/
theorem resolve_address_total_taxonomy_witness :
    pyIntHex "zz" = none ∧
    resolve_address demoOracle "zz" =
      ResolveResult.error "Invalid address format: zz" ∧
    pyIntHex "0xFFFFFFFF" = some 0xFFFFFFFF ∧
    (∀ Q ∈ demoOracle.peripherals, pMatch 0xFFFFFFFF Q = none) ∧
    resolve_address demoOracle "0xFFFFFFFF" =
      ResolveResult.status "No matching register found for this address." :=
  ⟨by decide,
   (resolve_address_total_taxonomy demoOracle "zz").1 (by decide),
   by decide, by decide,
   (resolve_address_total_taxonomy demoOracle "0xFFFFFFFF").2.1 0xFFFFFFFF
     (by decide) (by decide)⟩

/-- C9: `resolve_address` is deterministic and idempotent in the sense of
the spec: the index is read-only (the source never assigns to `self`),
so in the embedding the query is a pure function of the immutable oracle
and the input string, and two calls with the same arguments are the same
value. -/
theorem resolve_address_deterministic (o : HardwareOracle) (s : String) :
    resolve_address o s = resolve_address o s := rfl

/-- C3 counterexample: the claim says a Command API operation invoked with
no debugger session fails with a SessionNotReady error *returned to the
caller* rather than raising an unhandled fault.  No SessionNotReady value
exists anywhere in the code: on a freshly constructed interface
(`self.gdbmi is None`) `step_instruction` evaluates
`self.gdbmi.write(...)`, which *raises* `AttributeError` — modelled as
the `Except.error` exception channel, not a returned payload. -/
theorem step_without_session_raises :
    step_instruction (gdbInit "firmware/app.elf") =
      Except.error (PyExc.attributeError (sq ++ "NoneType" ++ sq ++
        " object has no attribute " ++ sq ++ "write" ++ sq)) := rfl

/-- C3 amended: invoking any Command API operation (step, continue,
read/write memory, read/write register, set breakpoint, backtrace,
evaluate expression) when no debugger session exists — never started or
torn down by stop, i.e. `self.gdbmi is None` — raises an `AttributeError`
from dereferencing the absent session handle; it does not block, and it
does not return a SessionNotReady error (no such error exists in the
code). -/
theorem command_api_raises_without_session
    (s : GDBInterface) (h : s.gdbmi = none)
    (address : String) (length : Int)
    (location expression register_id value : String) :
    step_instruction s = Except.error noSessionError ∧
    continue_execution s = Except.error noSessionError ∧
    get_registers s = Except.error noSessionError ∧
    read_memory s address length = Except.error noSessionError ∧
    write_memory s address value = Except.error noSessionError ∧
    write_register s register_id value = Except.error noSessionError ∧
    set_breakpoint s location = Except.error noSessionError ∧
    backtrace s = Except.error noSessionError ∧
    evaluate_expression s expression = Except.error noSessionError := by
  unfold step_instruction continue_execution get_registers read_memory
    write_memory write_register set_breakpoint backtrace evaluate_expression
    gdbmiWrite
  rw [h]
  exact ⟨rfl, rfl, rfl, rfl, rfl, rfl, rfl, rfl, rfl⟩

/-- Witness for C3 (amended) on a session torn down by `stop_all`. -/
theorem command_api_raises_without_session_witness :
    (stop_all demoLive).gdbmi = none ∧
    backtrace (stop_all demoLive) = Except.error noSessionError :=
  ⟨rfl,
   (command_api_raises_without_session (stop_all demoLive) rfl "0x8000" 4
     "main" "x" "R0" "0x5").2.2.2.2.2.2.2.1⟩

/-! ## Helper lemmas for `get_reg_info`: upper-casing and dot-splitting -/

/-- `Char.ofNat` round-trips through `toNat` below the surrogate range. -/
theorem charOfNat_toNat_lt (n : Nat) (h : n < 55296) :
    (Char.ofNat n).toNat = n := by
  have hv : n.isValidChar := Or.inl h
  unfold Char.ofNat
  rw [dif_pos hv]
  rfl

/-- Upper-casing maps only the dot to the dot: `pyCharUpper c` is a dot
only when `c` already was one (upper-casing a lower-case letter lands in
the A–Z range, never on code point 46). -/
theorem pyCharUpper_eq_dot (c : Char) (h : pyCharUpper c = Char.ofNat 46) :
    c = Char.ofNat 46 := by
  unfold pyCharUpper at h
  split at h
  · exfalso
    rename_i hc
    have h1 := charOfNat_toNat_lt (c.toNat - 32) (by omega)
    rw [h] at h1
    have h46 : (Char.ofNat 46).toNat = 46 := by decide
    omega
  · exact h

/-- Unpacking a concatenation of strings. -/
theorem data_append (a b : String) : (a ++ b).data = a.data ++ b.data := rfl

/-- Two strings with the same character list are equal. -/
theorem string_data_inj {a b : String} (h : a.data = b.data) : a = b := by
  cases a
  cases b
  rw [show ∀ l : List Char, (String.mk l).data = l from fun _ => rfl] at h
  rw [h]

/-- `str.upper()` distributes over concatenation. -/
theorem pyUpperStr_append (a b : String) :
    pyUpperStr (a ++ b) = pyUpperStr a ++ pyUpperStr b := by
  unfold pyUpperStr
  rw [show (a ++ b).data = a.data ++ b.data from rfl, List.map_append]
  rfl

/-- Upper-casing a dot-free string stays dot-free. -/
theorem upper_no_dot (s : String) (h : Char.ofNat 46 ∉ s.data) :
    Char.ofNat 46 ∉ (pyUpperStr s).data := by
  intro hc
  rw [show (pyUpperStr s).data = s.data.map pyCharUpper from rfl] at hc
  obtain ⟨d, hd, hde⟩ := List.mem_map.mp hc
  exact h (pyCharUpper_eq_dot d hde ▸ hd)

/-- A dot-free character list falsifies the split predicate everywhere. -/
theorem no_dot_pred (l : List Char) (h : Char.ofNat 46 ∉ l) :
    ∀ c ∈ l, ¬ (c == Char.ofNat 46) = true :=
  fun _ hc hbeq => h ((beq_iff_eq.mp hbeq) ▸ hc)

/-- `split('.')` of a dot-free string is the one-piece list. -/
theorem pySplitDot_single (s : String) (h : Char.ofNat 46 ∉ s.data) :
    pySplitDot s = [s] := by
  unfold pySplitDot
  rw [List.splitOn, List.splitOnP_eq_single _ _ (no_dot_pred s.data h)]
  rfl

/-- `split('.')` after `upper()` peels off a dot-free first component. -/
theorem pySplitDot_upper_cons (a b : String) (ha : Char.ofNat 46 ∉ a.data) :
    pySplitDot (pyUpperStr (a ++ "." ++ b)) =
      pyUpperStr a :: pySplitDot (pyUpperStr b) := by
  have hdata : (pyUpperStr (a ++ "." ++ b)).data =
      (pyUpperStr a).data ++ Char.ofNat 46 :: (pyUpperStr b).data := by
    rw [pyUpperStr_append, pyUpperStr_append, data_append, data_append]
    rw [show (pyUpperStr ".").data = [Char.ofNat 46] from rfl]
    rw [List.append_assoc]
    rfl
  unfold pySplitDot
  rw [hdata, List.splitOn, List.splitOn,
    List.splitOnP_first (fun x => x == Char.ofNat 46) (pyUpperStr a).data
      (no_dot_pred _ (upper_no_dot a ha)) (Char.ofNat 46) rfl
      ((pyUpperStr b).data)]
  rfl

/-- `get_reg_info` dispatches on the dot-split of the upper-cased query. -/
theorem get_reg_info_eq_parts (o : HardwareOracle) (name p : String)
    (rest : List String)
    (h : pySplitDot (pyUpperStr name) = p :: rest) :
    get_reg_info o name = get_reg_info_parts o p rest.head? := by
  unfold get_reg_info
  rw [h]

/-- `get_reg_info` depends on its query only through `upper()`. -/
theorem get_reg_info_upper_congr (o : HardwareOracle) (q1 q2 : String)
    (h : pyUpperStr q1 = pyUpperStr q2) :
    get_reg_info o q1 = get_reg_info o q2 := by
  unfold get_reg_info
  rw [h]

/-- Evaluation of `get_reg_info` on the stored name of a peripheral whose
name is upper-case-fixed and dot-free and that its own name scan finds:
the peripheral dict, with base, description and the register names in
document order. -/
theorem get_reg_info_periph_eval (o : HardwareOracle) (P : Peripheral)
    (hfind : o.peripherals.find? (fun p => p.name == P.name) = some P)
    (hup : pyUpperStr P.name = P.name)
    (hnd : Char.ofNat 46 ∉ P.name.data) :
    get_reg_info o P.name =
      RegInfoResult.periphInfo P.name (pyHex (P.base_address : Int))
        P.description (P.registers.map (fun r => r.name)) := by
  have hsplit : pySplitDot (pyUpperStr P.name) = [P.name] := by
    rw [hup]
    exact pySplitDot_single _ hnd
  rw [get_reg_info_eq_parts o P.name P.name [] hsplit]
  unfold get_reg_info_parts
  rw [hfind]
  rfl

/-- Evaluation of `get_reg_info` on `PERIPH.REGISTER` for stored names
that are upper-case-fixed, dot-free, found by their scans, and (for the
register) nonempty: the register dict, whose absolute address is
`hex(base + offset)`. -/
theorem get_reg_info_reg_eval (o : HardwareOracle) (P : Peripheral)
    (R : Register)
    (hfind : o.peripherals.find? (fun p => p.name == P.name) = some P)
    (hup : pyUpperStr P.name = P.name)
    (hnd : Char.ofNat 46 ∉ P.name.data)
    (hrfind : P.registers.find? (fun r => r.name == R.name) = some R)
    (hupR : pyUpperStr R.name = R.name)
    (hndR : Char.ofNat 46 ∉ R.name.data)
    (hne : R.name ≠ "") :
    get_reg_info o (P.name ++ "." ++ R.name) =
      RegInfoResult.regInfo P.name R.name (pyHex (P.base_address : Int))
        (pyHex (R.address_offset : Int))
        (pyHex ((P.base_address : Int) + (R.address_offset : Int)))
        R.description := by
  have hsplit : pySplitDot (pyUpperStr (P.name ++ "." ++ R.name)) =
      [P.name, R.name] := by
    rw [pySplitDot_upper_cons P.name R.name hnd, hup, hupR,
      pySplitDot_single R.name hndR]
  rw [get_reg_info_eq_parts o _ P.name [R.name] hsplit]
  unfold get_reg_info_parts
  rw [hfind]
  show (if R.name = "" then _ else _) = _
  rw [if_neg hne, hrfind]

/-- C5 counterexample: the claim says that for *every* peripheral in the
index, querying the exact stored name succeeds.  `get_reg_info` only
upper-cases the query and compares it to the stored names, so a
peripheral stored under the mixed-case name `GpioA` is not found even by
its own exact name (the query becomes `GPIOA`, which matches nothing):
the result is the error dict, not a success. -/
theorem get_reg_info_exact_name_fails :
    mixedOracle.peripherals.map (fun p => p.name) = ["GpioA"] ∧
    RegInfoResult.isErr (get_reg_info mixedOracle "GpioA") = true := by
  exact ⟨by decide, by decide⟩

/-- C5 amended: `get_reg_info` is case-insensitive for entries whose
stored names are already upper-case.  For a peripheral `P` that the name
scan finds, with upper-case-fixed dot-free name, every query that
upper-cases to `P`'s name returns the same result as querying the exact
stored name, and that result is a success (not the error dict); likewise
for `P.R` queries when the register's stored name is upper-case-fixed,
dot-free and nonempty. -/
theorem get_reg_info_case_insensitive
    (o : HardwareOracle) (P : Peripheral) (q : String)
    (hfind : o.peripherals.find? (fun p => p.name == P.name) = some P)
    (hup : pyUpperStr P.name = P.name)
    (hnd : Char.ofNat 46 ∉ P.name.data)
    (hq : pyUpperStr q = P.name) :
    (get_reg_info o q = get_reg_info o P.name ∧
      RegInfoResult.isErr (get_reg_info o P.name) = false) ∧
    (∀ (R : Register) (q2 : String),
      P.registers.find? (fun r => r.name == R.name) = some R →
      pyUpperStr R.name = R.name → Char.ofNat 46 ∉ R.name.data →
      R.name ≠ "" → pyUpperStr q2 = P.name ++ "." ++ R.name →
      get_reg_info o q2 = get_reg_info o (P.name ++ "." ++ R.name) ∧
        RegInfoResult.isErr (get_reg_info o (P.name ++ "." ++ R.name)) =
          false) := by
  constructor
  · constructor
    · exact get_reg_info_upper_congr o q P.name (by rw [hq, hup])
    · rw [get_reg_info_periph_eval o P hfind hup hnd]
      rfl
  · intro R q2 hrfind hupR hndR hne hq2
    constructor
    · refine get_reg_info_upper_congr o q2 (P.name ++ "." ++ R.name) ?_
      rw [hq2, pyUpperStr_append, pyUpperStr_append, hup, hupR]
      rfl
    · rw [get_reg_info_reg_eval o P R hfind hup hnd hrfind hupR hndR hne]
      rfl

/-- Witness for C5 (amended): `GPIOA` of the demo index queried as
`"gpioa"`, and `GPIOA.MODER` queried as `"GpIoA.moder"`. -/
theorem get_reg_info_case_insensitive_witness :
    demoOracle.peripherals.find? (fun p => p.name == gpioa.name) =
      some gpioa ∧
    pyUpperStr gpioa.name = gpioa.name ∧
    Char.ofNat 46 ∉ gpioa.name.data ∧
    pyUpperStr "gpioa" = gpioa.name ∧
    gpioa.registers.find? (fun r => r.name == moderReg.name) =
      some moderReg ∧
    pyUpperStr "GpIoA.moder" = gpioa.name ++ "." ++ moderReg.name ∧
    (get_reg_info demoOracle "gpioa" = get_reg_info demoOracle gpioa.name ∧
      RegInfoResult.isErr (get_reg_info demoOracle gpioa.name) = false) ∧
    (get_reg_info demoOracle "GpIoA.moder" =
        get_reg_info demoOracle (gpioa.name ++ "." ++ moderReg.name) ∧
      RegInfoResult.isErr
        (get_reg_info demoOracle (gpioa.name ++ "." ++ moderReg.name)) =
        false) :=
  ⟨by decide, by decide, by decide, by decide, by decide, by decide,
   (get_reg_info_case_insensitive demoOracle gpioa "gpioa" (by decide)
     (by decide) (by decide) (by decide)).1,
   (get_reg_info_case_insensitive demoOracle gpioa "gpioa" (by decide)
     (by decide) (by decide) (by decide)).2 moderReg "GpIoA.moder"
     (by decide) (by decide) (by decide) (by decide) (by decide)⟩

/-- C7 counterexample: the claim quantifies over *every* known peripheral,
but a peripheral stored under the mixed-case name `GpioA` — whose
register list is nonempty — yields the error dict when described by its
own name, not its register names, base and description. -/
theorem describe_mixed_case_fails :
    gpioAMixed ∈ mixedOracle.peripherals ∧
    gpioAMixed.registers.map (fun r => r.name) = ["Moder"] ∧
    get_reg_info mixedOracle "GpioA" =
      RegInfoResult.error
        ("Peripheral " ++ sq ++ "GPIOA" ++ sq ++ " not found.") := by
  exact ⟨by decide, by decide, by decide⟩

/-- C7 amended: for every known peripheral whose stored name is
upper-case-fixed, dot-free and found by the name scan, `describe(P)`
returns exactly the names of `P`'s registers in document order together
with `P`'s base address and description; and for every register of `P`
with an upper-case-fixed, dot-free, nonempty stored name, `describe
("P.R")` returns an absolute address equal to
`hex(base(P) + offset(R))`. -/
theorem describe_content
    (o : HardwareOracle) (P : Peripheral)
    (hfind : o.peripherals.find? (fun p => p.name == P.name) = some P)
    (hup : pyUpperStr P.name = P.name)
    (hnd : Char.ofNat 46 ∉ P.name.data) :
    get_reg_info o P.name =
      RegInfoResult.periphInfo P.name (pyHex (P.base_address : Int))
        P.description (P.registers.map (fun r => r.name)) ∧
    (∀ R : Register,
      P.registers.find? (fun r => r.name == R.name) = some R →
      pyUpperStr R.name = R.name → Char.ofNat 46 ∉ R.name.data →
      R.name ≠ "" →
      get_reg_info o (P.name ++ "." ++ R.name) =
        RegInfoResult.regInfo P.name R.name (pyHex (P.base_address : Int))
          (pyHex (R.address_offset : Int))
          (pyHex ((P.base_address : Int) + (R.address_offset : Int)))
          R.description) :=
  ⟨get_reg_info_periph_eval o P hfind hup hnd,
   fun R hrfind hupR hndR hne =>
     get_reg_info_reg_eval o P R hfind hup hnd hrfind hupR hndR hne⟩

/-- Witness for C7 (amended): `GPIOA` with registers `MODER`, `ODR` in
document order, and `GPIOA.MODER` at `0x48000000 + 0x0`. -/
theorem describe_content_witness :
    demoOracle.peripherals.find? (fun p => p.name == gpioa.name) =
      some gpioa ∧
    gpioa.registers.find? (fun r => r.name == moderReg.name) =
      some moderReg ∧
    get_reg_info demoOracle gpioa.name =
      RegInfoResult.periphInfo gpioa.name (pyHex (gpioa.base_address : Int))
        gpioa.description (gpioa.registers.map (fun r => r.name)) ∧
    get_reg_info demoOracle (gpioa.name ++ "." ++ moderReg.name) =
      RegInfoResult.regInfo gpioa.name moderReg.name
        (pyHex (gpioa.base_address : Int))
        (pyHex (moderReg.address_offset : Int))
        (pyHex ((gpioa.base_address : Int) + (moderReg.address_offset : Int)))
        moderReg.description :=
  ⟨by decide, by decide,
   (describe_content demoOracle gpioa (by decide) (by decide) (by decide)).1,
   (describe_content demoOracle gpioa (by decide) (by decide)
     (by decide)).2 moderReg (by decide) (by decide) (by decide)
     (by decide)⟩

/-- C10: a query with more than one dot — `a.b.extra`, with the first two
components dot-free — behaves exactly as the query made of its first two
components alone: `split('.')` produces the extra components, but
`get_reg_info` reads only `parts[0]` and `parts[1]` and never reports
the extras as malformed. -/
theorem get_reg_info_ignores_extra_components
    (o : HardwareOracle) (a b rest : String)
    (ha : Char.ofNat 46 ∉ a.data) (hb : Char.ofNat 46 ∉ b.data) :
    get_reg_info o (a ++ "." ++ b ++ "." ++ rest) =
      get_reg_info o (a ++ "." ++ b) := by
  have hassoc : a ++ "." ++ b ++ "." ++ rest =
      a ++ "." ++ (b ++ "." ++ rest) :=
    string_data_inj (by simp [data_append])
  have hsplitL : pySplitDot (pyUpperStr (a ++ "." ++ b ++ "." ++ rest)) =
      pyUpperStr a :: pyUpperStr b :: pySplitDot (pyUpperStr rest) := by
    rw [hassoc, pySplitDot_upper_cons a (b ++ "." ++ rest) ha,
      pySplitDot_upper_cons b rest hb]
  have hsplitR : pySplitDot (pyUpperStr (a ++ "." ++ b)) =
      [pyUpperStr a, pyUpperStr b] := by
    rw [pySplitDot_upper_cons a b ha,
      pySplitDot_single (pyUpperStr b) (upper_no_dot b hb)]
  rw [get_reg_info_eq_parts o _ (pyUpperStr a)
      (pyUpperStr b :: pySplitDot (pyUpperStr rest)) hsplitL,
    get_reg_info_eq_parts o _ (pyUpperStr a) [pyUpperStr b] hsplitR]
  rfl

/-- Witness for C10: `GPIOA.MODER.MODE0` resolves exactly like
`GPIOA.MODER`. -/
theorem get_reg_info_ignores_extra_components_witness :
    Char.ofNat 46 ∉ "GPIOA".data ∧ Char.ofNat 46 ∉ "MODER".data ∧
    get_reg_info demoOracle ("GPIOA" ++ "." ++ "MODER" ++ "." ++ "MODE0") =
      get_reg_info demoOracle ("GPIOA" ++ "." ++ "MODER") :=
  ⟨by decide, by decide,
   get_reg_info_ignores_extra_components demoOracle "GPIOA" "MODER" "MODE0"
     (by decide) (by decide)⟩

/-! ## Helper lemmas for the session lifecycle (C8) -/

/-- A boolean list with at most one index holding `true` has
`count true ≤ 1`. -/
theorem count_true_le_one (l : List Bool)
    (h : ∀ i j, l.get? i = some true → l.get? j = some true → i = j) :
    l.count true ≤ 1 := by
  induction l with
  | nil => simp
  | cons a t ih =>
    have ht : ∀ i j, t.get? i = some true → t.get? j = some true → i = j := by
      intro i j hi hj
      have hs := h (i + 1) (j + 1) (by simpa using hi) (by simpa using hj)
      omega
    cases a with
    | false => simpa [List.count_cons] using ih ht
    | true =>
      have hz : t.count true = 0 := by
        rw [List.count_eq_zero]
        intro hmem
        obtain ⟨n, hn⟩ := List.mem_iff_get?.mp hmem
        have := h 0 (n + 1) rfl (by simpa using hn)
        omega
      simp [List.count_cons, hz]

/-- No live entry at all gives `count true = 0`. -/
theorem count_zero_of_no_true (l : List Bool)
    (hno : ∀ j, l.get? j ≠ some true) : l.count true = 0 := by
  rw [List.count_eq_zero]
  intro hmem
  obtain ⟨n, hn⟩ := List.mem_iff_get?.mp hmem
  exact hno n hn

/-- A tracked emulator list has at most one live index. -/
theorem tracksEmu_inj (s : GDBInterface) (hE : TracksEmu s) :
    ∀ i j, s.emus.get? i = some true → s.emus.get? j = some true → i = j := by
  intro i j hi hj
  have h1 := (hE i).mp hi
  have h2 := (hE j).mp hj
  rw [h1] at h2
  exact Option.some_inj.mp h2

/-- A tracked debugger list has at most one live index. -/
theorem tracksDbg_inj (s : GDBInterface) (hD : TracksDbg s) :
    ∀ i j, s.dbgs.get? i = some true → s.dbgs.get? j = some true → i = j := by
  intro i j hi hj
  obtain ⟨g1, hg1, hp1⟩ := (hD i).mp hi
  obtain ⟨g2, hg2, hp2⟩ := (hD j).mp hj
  rw [hg1] at hg2
  rw [← hp1, ← hp2, Option.some_inj.mp hg2]

/-- Field equations of `stop_qemu`. -/
theorem stop_qemu_fields (s : GDBInterface) :
    (stop_qemu s).qemu_proc = none ∧ (stop_qemu s).gdbmi = s.gdbmi ∧
    (stop_qemu s).dbgs = s.dbgs ∧
    (stop_qemu s).emus.length = s.emus.length := by
  cases hq : s.qemu_proc <;> simp [stop_qemu, hq]

/-- After `stop_qemu` no emulator is live, and the previously tracked one
is dead at its index. -/
theorem stop_qemu_emus (s : GDBInterface) (hE : TracksEmu s) :
    (∀ j, (stop_qemu s).emus.get? j ≠ some true) ∧
    (∀ i, s.qemu_proc = some i →
      (stop_qemu s).emus.get? i = some false) := by
  cases hq : s.qemu_proc with
  | none =>
    refine ⟨?_, ?_⟩
    · intro j hj
      have hemus : (stop_qemu s).emus = s.emus := by simp [stop_qemu, hq]
      rw [hemus] at hj
      have hj2 := (hE j).mp hj
      rw [hq] at hj2
      cases hj2
    · intro i hi
      cases hi
  | some i0 =>
    have hemus : (stop_qemu s).emus = s.emus.set i0 false := by
      simp [stop_qemu, hq]
    have hlive : s.emus.get? i0 = some true := (hE i0).mpr hq
    refine ⟨?_, ?_⟩
    · intro j hj
      rw [hemus] at hj
      by_cases hij : i0 = j
      · subst hij
        rw [List.get?_set_eq, hlive] at hj
        simp at hj
      · rw [List.get?_set_ne _ _ hij] at hj
        have hj2 := (hE j).mp hj
        rw [hq] at hj2
        exact hij (Option.some_inj.mp hj2)
    · intro i hi
      have hii : i0 = i := Option.some_inj.mp hi
      subst hii
      rw [hemus, List.get?_set_eq, hlive]
      rfl

/-- Field equations of `stop_gdb`. -/
theorem stop_gdb_fields (s : GDBInterface) :
    (stop_gdb s).qemu_proc = s.qemu_proc ∧ (stop_gdb s).gdbmi = none ∧
    (stop_gdb s).emus = s.emus ∧
    (stop_gdb s).dbgs.length = s.dbgs.length := by
  cases hg : s.gdbmi <;> simp [stop_gdb, hg]

/-- After `stop_gdb` no debugger is live, and the previously tracked one
is dead at its index. -/
theorem stop_gdb_dbgs (s : GDBInterface) (hD : TracksDbg s) :
    (∀ j, (stop_gdb s).dbgs.get? j ≠ some true) ∧
    (∀ g, s.gdbmi = some g →
      (stop_gdb s).dbgs.get? g.proc = some false) := by
  cases hg : s.gdbmi with
  | none =>
    refine ⟨?_, ?_⟩
    · intro j hj
      have hdbgs : (stop_gdb s).dbgs = s.dbgs := by simp [stop_gdb, hg]
      rw [hdbgs] at hj
      obtain ⟨g, hgg, _⟩ := (hD j).mp hj
      rw [hg] at hgg
      cases hgg
    · intro g hgEq
      cases hgEq
  | some g0 =>
    have hdbgs : (stop_gdb s).dbgs = s.dbgs.set g0.proc false := by
      simp [stop_gdb, hg]
    have hlive : s.dbgs.get? g0.proc = some true :=
      (hD g0.proc).mpr ⟨g0, hg, rfl⟩
    refine ⟨?_, ?_⟩
    · intro j hj
      rw [hdbgs] at hj
      by_cases hij : g0.proc = j
      · subst hij
        rw [List.get?_set_eq, hlive] at hj
        simp at hj
      · rw [List.get?_set_ne _ _ hij] at hj
        obtain ⟨g, hgg, hp⟩ := (hD j).mp hj
        rw [hg] at hgg
        have hgeq : g0 = g := Option.some_inj.mp hgg
        exact hij (hgeq ▸ hp)
    · intro g hgEq
      have hgeq : g0 = g := Option.some_inj.mp hgEq
      subst hgeq
      rw [hdbgs, List.get?_set_eq, hlive]
      rfl

/-- `stop_all` clears both handles, leaves no live subprocess of either
kind, and the previously tracked subprocesses are dead at their
indices. -/
theorem stop_all_spec (s : GDBInterface) (h : SessionInv s) :
    (stop_all s).qemu_proc = none ∧ (stop_all s).gdbmi = none ∧
    (∀ j, (stop_all s).emus.get? j ≠ some true) ∧
    (∀ j, (stop_all s).dbgs.get? j ≠ some true) ∧
    (∀ i, s.qemu_proc = some i →
      (stop_all s).emus.get? i = some false) ∧
    (∀ g, s.gdbmi = some g →
      (stop_all s).dbgs.get? g.proc = some false) := by
  obtain ⟨hE, hD⟩ := h
  obtain ⟨tq, tg, td, _⟩ := stop_qemu_fields s
  obtain ⟨gq, gg, ge, _⟩ := stop_gdb_fields (stop_qemu s)
  have hDt : TracksDbg (stop_qemu s) := by
    unfold TracksDbg
    intro j
    rw [td, tg]
    exact hD j
  obtain ⟨eNo, eDead⟩ := stop_qemu_emus s hE
  obtain ⟨dNo, dDead⟩ := stop_gdb_dbgs (stop_qemu s) hDt
  refine ⟨?_, ?_, ?_, ?_, ?_, ?_⟩
  · show (stop_gdb (stop_qemu s)).qemu_proc = none
    rw [gq, tq]
  · exact gg
  · intro j
    show (stop_gdb (stop_qemu s)).emus.get? j ≠ some true
    rw [ge]
    exact eNo j
  · exact dNo
  · intro i hi
    show (stop_gdb (stop_qemu s)).emus.get? i = some false
    rw [ge]
    exact eDead i hi
  · intro g hgEq
    refine dDead g ?_
    rw [tg]
    exact hgEq

/-- `stop_all` preserves the session invariant. -/
theorem stop_all_inv (s : GDBInterface) (h : SessionInv s) :
    SessionInv (stop_all s) := by
  obtain ⟨hq, hg, hne, hnd, _, _⟩ := stop_all_spec s h
  constructor
  · unfold TracksEmu
    intro j
    rw [hq]
    constructor
    · intro hj
      exact absurd hj (hne j)
    · intro hj
      cases hj
  · unfold TracksDbg
    intro j
    rw [hg]
    constructor
    · intro hj
      exact absurd hj (hnd j)
    · rintro ⟨g, hgg, _⟩
      cases hgg

/-- Appending one live entry to an all-dead list makes exactly the new
index live. -/
theorem append_true_tracks (l : List Bool)
    (hno : ∀ j, l.get? j ≠ some true) :
    ∀ j, (l ++ [true]).get? j = some true ↔ l.length = j := by
  intro j
  rcases Nat.lt_trichotomy j l.length with hlt | heq | hgt
  · rw [List.get?_append hlt]
    constructor
    · intro hj
      exact absurd hj (hno j)
    · intro hr
      omega
  · rw [List.get?_append_right (Nat.le_of_eq heq.symm), heq]
    simp
  · rw [List.get?_append_right (Nat.le_of_lt hgt),
      List.get?_len_le (show ([true] : List Bool).length ≤ j - l.length by
        simp only [List.length_cons, List.length_nil]
        omega)]
    constructor
    · intro hj
      cases hj
    · intro hr
      omega

/-- `restart_environment` preserves the invariant, leaves exactly one live
emulator and one live debugger, and the subprocesses tracked before the
restart are dead afterwards (no leaked duplicates). -/
theorem restart_spec (s : GDBInterface) (h : SessionInv s) :
    SessionInv (restart_environment s).2 ∧
    liveEmuCount (restart_environment s).2 = 1 ∧
    liveDbgCount (restart_environment s).2 = 1 ∧
    (∀ i, s.qemu_proc = some i →
      (restart_environment s).2.emus.get? i = some false) ∧
    (∀ g, s.gdbmi = some g →
      (restart_environment s).2.dbgs.get? g.proc = some false) := by
  obtain ⟨_, _, eNo, dNo, eDead, dDead⟩ := stop_all_spec s h
  have hre : (restart_environment s).2.emus = (stop_all s).emus ++ [true] :=
    rfl
  have hrd : (restart_environment s).2.dbgs = (stop_all s).dbgs ++ [true] :=
    rfl
  have hrq : (restart_environment s).2.qemu_proc =
      some (stop_all s).emus.length := rfl
  have hrg : (restart_environment s).2.gdbmi =
      some { proc := (stop_all s).dbgs.length,
             transcript := ["-file-exec-and-symbols " ++ s.elf_path,
                            "target remote localhost:1234"] } := rfl
  refine ⟨⟨?_, ?_⟩, ?_, ?_, ?_, ?_⟩
  · unfold TracksEmu
    intro j
    rw [hre, hrq, append_true_tracks (stop_all s).emus eNo j]
    constructor
    · intro hj
      rw [hj]
    · intro hj
      exact Option.some_inj.mp hj
  · unfold TracksDbg
    intro j
    rw [hrd, hrg, append_true_tracks (stop_all s).dbgs dNo j]
    constructor
    · intro hj
      exact ⟨_, rfl, hj⟩
    · rintro ⟨g, hgg, hp⟩
      have hgeq := Option.some_inj.mp hgg
      rw [← hgeq] at hp
      exact hp
  · show ((stop_all s).emus ++ [true]).count true = 1
    rw [List.count_append, count_zero_of_no_true _ eNo]
    rfl
  · show ((stop_all s).dbgs ++ [true]).count true = 1
    rw [List.count_append, count_zero_of_no_true _ dNo]
    rfl
  · intro i hi
    have hdead := eDead i hi
    obtain ⟨hlt, _⟩ := List.get?_eq_some.mp hdead
    rw [hre, List.get?_append hlt]
    exact hdead
  · intro g hgEq
    have hdead := dDead g hgEq
    obtain ⟨hlt, _⟩ := List.get?_eq_some.mp hdead
    rw [hrd, List.get?_append hlt]
    exact hdead

/-- `start` preserves the invariant. -/
theorem start_inv (s : GDBInterface) (h : SessionInv s) :
    SessionInv (start s) := by
  unfold start
  cases hg : s.gdbmi with
  | none => exact (restart_spec s h).1
  | some g => exact h

/-- Every lifecycle operation preserves the invariant. -/
theorem applyOp_inv (s : GDBInterface) (op : LifecycleOp)
    (h : SessionInv s) : SessionInv (applyOp s op) := by
  cases op with
  | startOp => exact start_inv s h
  | restartOp => exact (restart_spec s h).1
  | stopOp => exact stop_all_inv s h

/-- A fresh interface satisfies the invariant. -/
theorem gdbInit_inv (elf : String) : SessionInv (gdbInit elf) := by
  constructor
  · unfold TracksEmu
    intro j
    simp [gdbInit]
  · unfold TracksDbg
    intro j
    simp [gdbInit]

/-- The invariant holds after any sequence of lifecycle operations. -/
theorem runOps_inv (s : GDBInterface) (h : SessionInv s) :
    ∀ ops : List LifecycleOp, SessionInv (runOps s ops) := by
  intro ops
  induction ops generalizing s with
  | nil => exact h
  | cons op ops ih => exact ih (applyOp s op) (applyOp_inv s op h)

/-- The invariant bounds both live counts by one. -/
theorem inv_counts (s : GDBInterface) (h : SessionInv s) :
    liveEmuCount s ≤ 1 ∧ liveDbgCount s ≤ 1 :=
  ⟨count_true_le_one s.emus (tracksEmu_inj s h.1),
   count_true_le_one s.dbgs (tracksDbg_inj s h.2)⟩

/-- C8: after any sequence of start/restart/stop operations from a fresh
interface, at most one emulator subprocess and one debugger subprocess
are live; and a further `restart_environment` — in particular one called
while a session is live — tears the tracked prior subprocesses down
(they are dead at their indices afterwards) and leaves exactly one live
emulator and one live debugger. -/
theorem lifecycle_single_live_instance (elf : String)
    (ops : List LifecycleOp) :
    liveEmuCount (runOps (gdbInit elf) ops) ≤ 1 ∧
    liveDbgCount (runOps (gdbInit elf) ops) ≤ 1 ∧
    liveEmuCount (restart_environment (runOps (gdbInit elf) ops)).2 = 1 ∧
    liveDbgCount (restart_environment (runOps (gdbInit elf) ops)).2 = 1 ∧
    (∀ i, (runOps (gdbInit elf) ops).qemu_proc = some i →
      (restart_environment (runOps (gdbInit elf) ops)).2.emus.get? i =
        some false) ∧
    (∀ g, (runOps (gdbInit elf) ops).gdbmi = some g →
      (restart_environment (runOps (gdbInit elf) ops)).2.dbgs.get? g.proc =
        some false) := by
  have hinv := runOps_inv (gdbInit elf) (gdbInit_inv elf) ops
  have hr := restart_spec (runOps (gdbInit elf) ops) hinv
  have hc := inv_counts _ hinv
  exact ⟨hc.1, hc.2, hr.2.1, hr.2.2.1, hr.2.2.2.1, hr.2.2.2.2⟩

/-- Witness for C8: one restart from fresh, then a second restart kills
the first QEMU (index 0 goes dead) and leaves exactly one live pair. -/
theorem lifecycle_single_live_instance_witness :
    liveEmuCount (runOps (gdbInit "firmware/app.elf")
      [LifecycleOp.restartOp]) ≤ 1 ∧
    (runOps (gdbInit "firmware/app.elf")
      [LifecycleOp.restartOp]).qemu_proc = some 0 ∧
    liveEmuCount (restart_environment (runOps (gdbInit "firmware/app.elf")
      [LifecycleOp.restartOp])).2 = 1 ∧
    (restart_environment (runOps (gdbInit "firmware/app.elf")
      [LifecycleOp.restartOp])).2.emus.get? 0 = some false :=
  ⟨(lifecycle_single_live_instance "firmware/app.elf"
      [LifecycleOp.restartOp]).1,
   rfl,
   (lifecycle_single_live_instance "firmware/app.elf"
      [LifecycleOp.restartOp]).2.2.1,
   (lifecycle_single_live_instance "firmware/app.elf"
      [LifecycleOp.restartOp]).2.2.2.2.1 0 rfl⟩

end JTAG
